import Mathlib

/-!
Shallow embedding of the diff/report core of the `book_my_show-recent-events`
repository (`main.py`: `load_events`, `save_events`, `compare_events`,
`generate_report_content`; `to_excel.py`: `convert_report_to_excel`).

Python dictionaries keyed by URL are modelled as association lists with
insertion-order keys; Python strings are Lean `String`s; the wall clock and
the file system are passed explicitly.  Functions are kept executable and
structurally recursive so concrete runs reduce in the kernel.
-/

/-- One scraped listing (`main.py`, the `event_data` dictionaries).
Only `name` and `url` are guaranteed by the scraper; every field is
optional here because the report renderer accesses all of them with
`dict.get` fallbacks. -/
structure EventRecord where
  name : Option String := none
  url : Option String := none
  venue : Option String := none
  date : Option String := none
  price : Option String := none
  image : Option String := none
  status : Option String := none
  timestamp : Option String := none
  scraped_at : Option String := none
  is_fast_filling : Option Bool := none
  is_sold_out : Option Bool := none
deriving DecidableEq

/-- A snapshot mapping `url -> EventRecord`, as built by `load_events`
(`{event['url']: event for event in events}`): an association list whose
keys are unique and in first-insertion order. -/
abbrev Mapping := List (String × EventRecord)

/-- The keys of a mapping (`dict.keys()`). -/
def urlKeys (m : Mapping) : List String := m.map Prod.fst

/-- Dictionary lookup `m[u]`, returning `none` when the key is absent. -/
def lookupA (m : Mapping) (u : String) : Option EventRecord :=
  (m.find? (fun p => p.1 == u)).map Prod.snd

/-- One Python dict assignment `m[k] = v`: replace the value at an existing
key in place, else append the new binding. -/
def dictInsert (m : Mapping) (k : String) (v : EventRecord) : Mapping :=
  if m.any (fun p => p.1 == k) then
    m.map (fun p => if p.1 == k then (k, v) else p)
  else
    m ++ [(k, v)]

/-- The dict comprehension `{event['url']: event for event in events}` of
`load_events` (main.py line 267), with the accumulated dictionary explicit.
A record lacking `url` raises `KeyError` in Python, modelled as
`Except.error`. -/
def buildMappingAux (acc : Mapping) : List EventRecord → Except String Mapping
  | [] => Except.ok acc
  | e :: rest =>
    match e.url with
    | none => Except.error "KeyError: url"
    | some u => buildMappingAux (dictInsert acc u e) rest

/-- `{event['url']: event for event in events}` (main.py line 267). -/
def buildMapping (events : List EventRecord) : Except String Mapping :=
  buildMappingAux [] events

/-- The observable contents of a snapshot file: absent, present but not
valid JSON, or a JSON array of event records (contents modelled at the
parsed level). -/
inductive SnapshotFile
  | absent
  | invalidJson
  | validJson (events : List EventRecord)
deriving DecidableEq

/-- `load_events` (main.py lines 262-272): returns the url-keyed mapping
together with the list of printed diagnostics.  `FileNotFoundError` and
`json.JSONDecodeError` are caught and yield an empty mapping; a `KeyError`
from the dict comprehension propagates (`Except.error`). -/
def load_events (filename : String) : SnapshotFile → Except String (Mapping × List String)
  | SnapshotFile.absent => Except.ok ([], [])
  | SnapshotFile.invalidJson =>
      Except.ok ([], ["Error: Could not decode " ++ filename])
  | SnapshotFile.validJson events =>
      (buildMapping events).map (fun m => (m, []))

/-- `get_filename` (main.py lines 46-48). -/
def get_filename (date : String) : String :=
  "data/bookmyshow/events_" ++ date ++ ".json"

/-- The snapshot directory, as a map from file names to contents. -/
abbrev FS := String → SnapshotFile

/-- `save_events` (main.py lines 246-257): a no-op on an empty list
(`if not events: return`), otherwise writes the records as a JSON array to
the file for `date`, unconditionally replacing previous contents. -/
def save_events (events : List EventRecord) (date : String) (fs : FS) : FS :=
  if events.isEmpty then fs
  else fun f => if f = get_filename date then SnapshotFile.validJson events else fs f

/-- The dictionary returned by `compare_events` (main.py lines 288-297). -/
structure DiffResult where
  added : List EventRecord
  removed : List EventRecord
  stats_added : Nat
  stats_removed : Nat
  stats_total_old : Nat
  stats_total_new : Nat
deriving DecidableEq

/-- `compare_events` (main.py lines 274-297), taking the two already-loaded
mappings (in the source the function receives file names and calls
`load_events` on them, modelled by `load_events` above).  Python's set
differences `new_urls - old_urls` / `old_urls - new_urls` iterate in an
unspecified order; they are realised here as membership-filtered key lists,
which represent the same sets. -/
def compare_events (old_events new_events : Mapping) : DiffResult :=
  let old_urls := urlKeys old_events
  let new_urls := urlKeys new_events
  let added_urls := new_urls.filter (fun u => !(old_urls.contains u))
  let removed_urls := old_urls.filter (fun u => !(new_urls.contains u))
  { added := added_urls.filterMap (lookupA new_events)
  , removed := removed_urls.filterMap (lookupA old_events)
  , stats_added := added_urls.length
  , stats_removed := removed_urls.length
  , stats_total_old := old_events.length
  , stats_total_new := new_events.length }

/-- The lines appended for one added event (main.py lines 310-316). -/
def addedEventLines (e : EventRecord) : List String :=
  ["- " ++ e.name.getD "Untitled Event",
   "  URL: " ++ e.url.getD "N/A"]
  ++ (if e.is_fast_filling.getD false then ["  (Fast Filling!)"] else [])
  ++ (if e.is_sold_out.getD false then ["  (SOLD OUT!)"] else [])

/-- The lines appended for one removed event (main.py lines 319-321). -/
def removedEventLines (e : EventRecord) : List String :=
  ["- " ++ e.name.getD "Untitled Event",
   "  URL: " ++ e.url.getD "N/A"]

/-- The lines appended for entry `i` of the New Events Summary
(main.py lines 327-336); `if event.get('price'):` is Python truthiness,
false for an absent key and for the empty string. -/
def summaryEventLines (i : Nat) (e : EventRecord) : List String :=
  ["\n" ++ toString i ++ ". " ++ e.name.getD "Untitled Event",
   "   Venue: " ++ e.venue.getD "N/A",
   "   Date: " ++ e.date.getD "N/A",
   "   URL: " ++ e.url.getD "N/A"]
  ++ (match e.price with
      | some p => if p = "" then [] else ["   Price: " ++ p]
      | none => [])
  ++ (if e.is_fast_filling.getD false then ["   Status: FAST FILLING!"] else [])
  ++ (if e.is_sold_out.getD false then ["   Status: SOLD OUT!"] else [])

/-- `enumerate(results['added'][:10], 1)` unfolded: summary entries numbered
from `i`. -/
def summaryEntriesLines : Nat → List EventRecord → List String
  | _, [] => []
  | i, e :: rest => summaryEventLines i e ++ summaryEntriesLines (i + 1) rest

/-- The four header lines (main.py lines 304-307); `now` is the rendered
wall-clock string `datetime.now().strftime('%Y-%m-%d %H:%M:%S')`.  Note the
trailing `"\n"` inside the comparison-time line, as in the source. -/
def reportHeaderLines (r : DiffResult) (now : String) : List String :=
  ["\n=== Event Comparison Results ===",
   "Old file: " ++ toString r.stats_total_old ++ " events",
   "New file: " ++ toString r.stats_total_new ++ " events",
   "Comparison time: " ++ now ++ "\n"]

/-- The added section (main.py lines 309-316). -/
def addedSectionLines (r : DiffResult) : List String :=
  ("Newly added events (" ++ toString r.stats_added ++ "):")
    :: r.added.flatMap addedEventLines

/-- The removed section (main.py lines 318-321). -/
def removedSectionLines (r : DiffResult) : List String :=
  ("\nRemoved events (" ++ toString r.stats_removed ++ "):")
    :: r.removed.flatMap removedEventLines

/-- The summary section (main.py lines 323-336): emitted only when
`results['added']` is non-empty, capped to the first 10 added events. -/
def summarySectionLines (r : DiffResult) : List String :=
  if r.added.isEmpty then []
  else "\n=== New Events Summary ===" :: summaryEntriesLines 1 (r.added.take 10)

/-- All lines accumulated in `report_lines` by `generate_report_content`. -/
def generateReportLines (r : DiffResult) (now : String) : List String :=
  reportHeaderLines r now ++ addedSectionLines r
    ++ removedSectionLines r ++ summarySectionLines r

/-- Python's `"\n".join(...)`. -/
def joinLines : List String → String
  | [] => ""
  | [l] => l
  | l :: l' :: ls => l ++ "\n" ++ joinLines (l' :: ls)

/-- `generate_report_content` (main.py lines 299-338), with the wall clock
passed in as `now`. -/
def generate_report_content (r : DiffResult) (now : String) : String :=
  joinLines (generateReportLines r now)

/-!
### Report-to-Table Converter (`to_excel.py`)

String primitives are implemented over `String.data` with structural
recursion so that concrete parses reduce inside the kernel.  They model the
Python operations used by `convert_report_to_excel`: `str.strip`,
`str.startswith`, `in` (substring), `str.replace`, `str.split(pat, 1)` and
`str.split('\n')`.
-/

/-- `pat` is a prefix of `s` (character lists). -/
def listStartsWith : List Char → List Char → Bool
  | [], _ => true
  | _ :: _, [] => false
  | c :: cs, d :: ds => c == d && listStartsWith cs ds

/-- Python `line.startswith(pat)`. -/
def pyStartsWith (s pat : String) : Bool := listStartsWith pat.data s.data

/-- Drop `pat` from the front of `s`, or `none` when it is not a prefix. -/
def dropPrefixList : List Char → List Char → Option (List Char)
  | [], s => some s
  | _ :: _, [] => none
  | c :: cs, d :: ds => if c == d then dropPrefixList cs ds else none

/-- Substring test, Python `pat in s`. -/
def listContainsSub (pat : List Char) : List Char → Bool
  | [] => (dropPrefixList pat []).isSome
  | c :: cs => (dropPrefixList pat (c :: cs)).isSome || listContainsSub pat cs

/-- Python `pat in line`. -/
def pyContains (s pat : String) : Bool := listContainsSub pat.data s.data

/-- Python `str.strip()` (leading and trailing whitespace removed). -/
def pyStrip (s : String) : String :=
  String.mk (((s.data.dropWhile Char.isWhitespace).reverse.dropWhile Char.isWhitespace).reverse)

/-- Python `content.split('\n')`. -/
def splitNewlineAux (acc : List Char) : List Char → List String
  | [] => [String.mk acc.reverse]
  | c :: cs =>
    if c == '\n' then String.mk acc.reverse :: splitNewlineAux [] cs
    else splitNewlineAux (c :: acc) cs

/-- Python `content.split('\n')`. -/
def pySplitNewline (s : String) : List String := splitNewlineAux [] s.data

/-- Python `s.replace(pat, repl)` for a non-empty `pat` (the only use in the
source), written with explicit fuel to stay structurally recursive. -/
def replaceAllFuel (pat repl : List Char) : Nat → List Char → List Char
  | 0, s => s
  | _ + 1, [] => []
  | fuel + 1, c :: cs =>
    match dropPrefixList pat (c :: cs) with
    | some rest => repl ++ replaceAllFuel pat repl fuel rest
    | none => c :: replaceAllFuel pat repl fuel cs

/-- Python `s.replace(pat, repl)` for non-empty `pat`. -/
def pyReplace (s pat repl : String) : String :=
  String.mk (replaceAllFuel pat.data repl.data s.data.length s.data)

/-- The characters after the first occurrence of `pat`, when there is
one. -/
def splitFirstAfter (pat : List Char) : List Char → Option (List Char)
  | [] => dropPrefixList pat []
  | c :: cs =>
    match dropPrefixList pat (c :: cs) with
    | some rest => some rest
    | none => splitFirstAfter pat cs

/-- Python `line.split('. ', 1)[1]`; callers guard with `'. ' in line`, so
the `none` fallback (Python would raise `IndexError`) is unreachable
there. -/
def pySplitDotSpaceTail (s : String) : String :=
  match splitFirstAfter ". ".data s.data with
  | some rest => String.mk rest
  | none => s

/-- Python `line[0].isdigit()`; callers only reach it on non-empty lines. -/
def pyFirstIsDigit (s : String) : Bool :=
  match s.data with
  | [] => false
  | c :: _ => c.isDigit

/-- One spreadsheet row of the converter (`current_event` dictionaries in
`to_excel.py`). -/
structure TableRow where
  name : String
  url : String
  type : String
  venue : String
  date : String
deriving DecidableEq

/-- The loop state of `convert_report_to_excel`'s parsing pass:
`current_section`, `events`, `current_event` (the empty dict `{}` is
falsy in Python, modelled as `none`). -/
structure ConvState where
  current_section : Option String
  events : List TableRow
  current_event : Option TableRow
deriving DecidableEq

/-- `if current_event: events.append(current_event)`. -/
def flushEvent (st : ConvState) : List TableRow :=
  match st.current_event with
  | some ev => st.events ++ [ev]
  | none => st.events

/-- One iteration of the parsing loop of `convert_report_to_excel`
(to_excel.py lines 20-67).  Note that the source strips each line before
testing prefixes, so the branches guarded by the indented prefixes
`"  URL:"`, `"   Venue:"`, `"   Date:"`, `"   URL:"` can never fire (a
stripped line cannot begin with a space); they are modelled nonetheless.
In those dead branches the source would also mutate the falsy empty dict
`{}`; since no input reaches them, updating `current_event` through
`Option.map` is extensionally faithful. -/
def processLine (st : ConvState) (raw : String) : ConvState :=
  let line := pyStrip raw
  if line = "" then st
  else if pyStartsWith line "===" then
    { st with current_section :=
        if pyContains line "Newly added events" then some "added"
        else if pyContains line "Removed events" then some "removed"
        else if pyContains line "New Events Summary" then some "summary"
        else st.current_section }
  else if pyStartsWith line "- "
      && (st.current_section == some "added" || st.current_section == some "removed") then
    { st with events := flushEvent st,
              current_event := some
                { name := String.mk (line.data.drop 2)
                , url := ""
                , type := if st.current_section == some "added" then "Added" else "Removed"
                , venue := "N/A"
                , date := "N/A" } }
  else if pyStartsWith line "  URL:" && st.current_event.isSome then
    { st with current_event :=
        st.current_event.map (fun ev =>
          { ev with url := pyStrip (pyReplace line "URL:" "") }) }
  else if st.current_section == some "summary" && pyFirstIsDigit line
      && pyContains line ". " then
    { st with events := flushEvent st,
              current_event := some
                { name := pySplitDotSpaceTail line
                , url := ""
                , type := "New Summary"
                , venue := "N/A"
                , date := "N/A" } }
  else if st.current_section == some "summary" && pyStartsWith line "   Venue:" then
    { st with current_event :=
        st.current_event.map (fun ev =>
          { ev with venue := pyStrip (pyReplace line "Venue:" "") }) }
  else if st.current_section == some "summary" && pyStartsWith line "   Date:" then
    { st with current_event :=
        st.current_event.map (fun ev =>
          { ev with date := pyStrip (pyReplace line "Date:" "") }) }
  else if st.current_section == some "summary" && pyStartsWith line "   URL:" then
    { st with current_event :=
        st.current_event.map (fun ev =>
          { ev with url := pyStrip (pyReplace line "URL:" "") }) }
  else st

/-- The full parsing pass of `convert_report_to_excel` (to_excel.py lines
14-71), including the final flush of `current_event`. -/
def parse_report (content : String) : List TableRow :=
  flushEvent ((pySplitNewline content).foldl processLine
    { current_section := none, events := [], current_event := none })

/-- The cells written for one parsed row (to_excel.py lines 78-86). -/
def rowCells (ev : TableRow) : List String :=
  [ev.name, ev.type, ev.venue, ev.date, ev.url]

/-- The observable contents of the converter's input file. -/
inductive ReportFile
  | absent
  | present (content : String)
deriving DecidableEq

/-- `convert_report_to_excel` (to_excel.py lines 4-103), with the worksheet
modelled as its list of rows (header row first) and a missing input file as
the uncaught `FileNotFoundError` from `open`.  `wb.save` runs once at the
very end, so an output value exists exactly when the result is `ok`. -/
def convert_report_to_excel : ReportFile → Except String (List (List String))
  | ReportFile.absent => Except.error "FileNotFoundError"
  | ReportFile.present content =>
      Except.ok (["Event Name", "Type", "Venue", "Date", "URL"]
        :: (parse_report content).map rowCells)

/-!
### Helper lemmas
-/

/-- Unfolding `joinLines` one line at a time. -/
theorem joinLines_cons_cons (a b : String) (l : List String) :
    joinLines (a :: b :: l) = a ++ "\n" ++ joinLines (b :: l) := rfl

/-- A key of a mapping always has a value (`dict[u]` succeeds for
`u in dict`). -/
theorem lookupA_isSome_of_mem_urlKeys (m : Mapping) (u : String)
    (h : u ∈ urlKeys m) : (lookupA m u).isSome := by
  simp only [urlKeys, List.mem_map] at h
  obtain ⟨p, hp, hpu⟩ := h
  have : (m.find? (fun q => q.1 == u)).isSome := by
    rw [List.find?_isSome]
    exact ⟨p, hp, by simp [hpu]⟩
  simpa [lookupA] using this

/-- `filterMap` with a function that never drops an element preserves
length. -/
theorem length_filterMap_of_all_isSome {α β : Type} (f : α → Option β) :
    ∀ l : List α, (∀ a ∈ l, (f a).isSome) → (l.filterMap f).length = l.length := by
  intro l
  induction l with
  | nil => intro _; rfl
  | cons a t ih =>
    intro h
    have ha := h a (List.mem_cons_self a t)
    obtain ⟨b, hb⟩ := Option.isSome_iff_exists.mp ha
    simp [List.filterMap_cons, hb, ih (fun x hx => h x (List.mem_cons_of_mem a hx))]

/-- The `added` list of a diff has exactly one record per added url, so its
length is the reported `stats.added` count. -/
theorem stats_added_eq_length_added (o n : Mapping) :
    (compare_events o n).stats_added = (compare_events o n).added.length := by
  show ((urlKeys n).filter (fun u => !((urlKeys o).contains u))).length
      = (((urlKeys n).filter (fun u => !((urlKeys o).contains u))).filterMap (lookupA n)).length
  rw [length_filterMap_of_all_isSome]
  intro u hu
  exact lookupA_isSome_of_mem_urlKeys n u (List.mem_of_mem_filter hu)

/-- Same for `removed`. -/
theorem stats_removed_eq_length_removed (o n : Mapping) :
    (compare_events o n).stats_removed = (compare_events o n).removed.length := by
  show ((urlKeys o).filter (fun u => !((urlKeys n).contains u))).length
      = (((urlKeys o).filter (fun u => !((urlKeys n).contains u))).filterMap (lookupA o)).length
  rw [length_filterMap_of_all_isSome]
  intro u hu
  exact lookupA_isSome_of_mem_urlKeys o u (List.mem_of_mem_filter hu)

/-- Sample record used by concrete witnesses: an event named "A" with
url "u". -/
def recA : EventRecord := { name := some "A", url := some "u" }

/-- Another sample record for witnesses: an event named "B" with url "v". -/
def recB : EventRecord := { name := some "B", url := some "v" }

/-- The report rendered from diffing an empty old snapshot against a new
snapshot holding only `recA`: it contains one `Newly added events (1):`
block with one event line and one URL line. -/
def scenarioReport : String :=
  generate_report_content (compare_events [] [("u", recA)]) "2025-06-05 12:00:00"

/-!
### Claim theorems
-/

/-- C1: the render-then-parse round trip fails on the code.  `scenarioReport`
contains exactly one `Newly added events (1):` block with one event line and
a URL line, yet the converter parses it to a single row of type
`New Summary` with an empty url — no row of type `Added` and no row carrying
url `u` exists.  The converter's added/removed branches are dead code: the
report's added/removed headers lack the `===` sentinel the section switch
requires, and every line is stripped before the indentation-sensitive
prefixes `"  URL:"`, `"   Venue:"`, `"   Date:"`, `"   URL:"` are tested, so
those prefixes can never match. -/
theorem roundtrip_loses_added_rows :
    parse_report scenarioReport
        = [{ name := "A", url := "", type := "New Summary"
           , venue := "N/A", date := "N/A" }]
      ∧ (parse_report scenarioReport).all
          (fun row => row.type != "Added" && row.url != "u") := by
  constructor
  · decide
  · decide

/-- C3: loading an absent snapshot file, or one whose contents are invalid
JSON, returns the empty mapping without raising to the caller; in the
invalid-JSON case a diagnostic naming the file is printed. -/
theorem load_events_missing_or_invalid (filename : String) :
    load_events filename SnapshotFile.absent = Except.ok ([], [])
      ∧ load_events filename SnapshotFile.invalidJson
          = Except.ok ([], ["Error: Could not decode " ++ filename]) :=
  ⟨rfl, rfl⟩

/-- C7: saving an empty events list leaves the file system untouched (no
file created or modified); saving a non-empty list writes exactly the JSON
array of those records to the file for `date` — unconditionally replacing
whatever that file held — and touches no other file. -/
theorem save_events_spec (date : String) (fs : FS) (e : EventRecord)
    (rest : List EventRecord) :
    save_events [] date fs = fs
      ∧ save_events (e :: rest) date fs (get_filename date)
          = SnapshotFile.validJson (e :: rest)
      ∧ ∀ f : String, f ≠ get_filename date →
          save_events (e :: rest) date fs f = fs f := by
  refine ⟨rfl, ?_, ?_⟩
  · simp [save_events]
  · intro f hf
    simp [save_events, hf]

/-- Witness for `save_events_spec`: one record saved for 2025-06-05 over a
file system in which every file already exists. -/
theorem save_events_spec_witness :
    save_events [] "2025-06-05" (fun _ => SnapshotFile.validJson []) = (fun _ => SnapshotFile.validJson [])
      ∧ save_events [recA] "2025-06-05" (fun _ => SnapshotFile.validJson [])
          (get_filename "2025-06-05") = SnapshotFile.validJson [recA]
      ∧ ("other" ≠ get_filename "2025-06-05"
          ∧ save_events [recA] "2025-06-05" (fun _ => SnapshotFile.validJson []) "other"
              = SnapshotFile.validJson []) := by
  obtain ⟨h1, h2, h3⟩ :=
    save_events_spec "2025-06-05" (fun _ => SnapshotFile.validJson []) recA []
  exact ⟨h1, h2, by decide, h3 "other" (by decide)⟩

/-- Counterexample to C8 as stated: on malformed report contents the
converter does not raise — it succeeds and produces a complete table (here
just the header row). -/
theorem converter_accepts_malformed :
    convert_report_to_excel (ReportFile.present "%%% not a report %%%")
      = Except.ok [["Event Name", "Type", "Venue", "Date", "URL"]] := rfl

/-- C8 (amended): a missing input file raises a fatal error that propagates
to the caller, with no output produced; any present contents — malformed or
not — are accepted without error, and the converter produces a complete
table headed by the fixed header row (never a partial output). -/
theorem converter_failure_modes :
    convert_report_to_excel ReportFile.absent = Except.error "FileNotFoundError"
      ∧ ∀ content : String, ∃ rows : List (List String),
          convert_report_to_excel (ReportFile.present content)
            = Except.ok (["Event Name", "Type", "Venue", "Date", "URL"] :: rows) :=
  ⟨rfl, fun content => ⟨(parse_report content).map rowCells, rfl⟩⟩

/-- C9: the renderer is a pure function of the diff result except for the
embedded comparison timestamp: for a fixed diff result there are a prefix
and a suffix, independent of the wall clock, such that every invocation
renders prefix ++ comparison-time line ++ suffix.  Two invocations on the
same input therefore produce byte-identical text except for that line. -/
theorem render_deterministic_mod_timestamp (r : DiffResult) :
    ∃ pre rest : String, ∀ now : String,
      generate_report_content r now
        = pre ++ ("Comparison time: " ++ now ++ "\n") ++ ("\n" ++ rest) := by
  refine ⟨"\n=== Event Comparison Results ===" ++ "\n"
      ++ ("Old file: " ++ toString r.stats_total_old ++ " events") ++ "\n"
      ++ ("New file: " ++ toString r.stats_total_new ++ " events") ++ "\n",
    joinLines (addedSectionLines r ++ removedSectionLines r ++ summarySectionLines r), ?_⟩
  intro now
  show joinLines (generateReportLines r now) = _
  have h1 : generateReportLines r now
      = "\n=== Event Comparison Results ==="
        :: ("Old file: " ++ toString r.stats_total_old ++ " events")
        :: ("New file: " ++ toString r.stats_total_new ++ " events")
        :: ("Comparison time: " ++ now ++ "\n")
        :: ("Newly added events (" ++ toString r.stats_added ++ "):")
        :: (r.added.flatMap addedEventLines
            ++ removedSectionLines r ++ summarySectionLines r) := by
    simp [generateReportLines, reportHeaderLines, addedSectionLines]
  rw [h1, joinLines_cons_cons, joinLines_cons_cons, joinLines_cons_cons,
    joinLines_cons_cons]
  simp only [String.append_assoc, addedSectionLines, List.cons_append]

/-- When the diff's `added` list is empty so is the set of added urls, hence
the reported count is 0. -/
theorem stats_added_eq_zero_of_added_nil (o n : Mapping)
    (h : (compare_events o n).added = []) :
    (compare_events o n).stats_added = 0 := by
  rw [stats_added_eq_length_added, h]
  rfl

/-- C5: for a diff result with an empty `added` list the rendered report has
the `Newly added events` header with count 0, no event lines under it, and
no `New Events Summary` section at all (the full line list is the header
lines, the count-0 added header, and the removed section); for a diff result
with a non-empty `added` list the summary section is present and lists
exactly the first `min 10 |added|` added events — at most 10. -/
theorem report_empty_added_and_summary_cap
    (oldA newA oldB newB : Mapping) (now : String)
    (hA : (compare_events oldA newA).added = [])
    (hB : (compare_events oldB newB).added ≠ []) :
    (addedSectionLines (compare_events oldA newA) = ["Newly added events (0):"]
      ∧ summarySectionLines (compare_events oldA newA) = []
      ∧ generateReportLines (compare_events oldA newA) now
          = reportHeaderLines (compare_events oldA newA) now
            ++ ["Newly added events (0):"]
            ++ removedSectionLines (compare_events oldA newA))
    ∧ (summarySectionLines (compare_events oldB newB)
          = "\n=== New Events Summary ==="
            :: summaryEntriesLines 1 ((compare_events oldB newB).added.take 10)
        ∧ ((compare_events oldB newB).added.take 10).length ≤ 10) := by
  have hz := stats_added_eq_zero_of_added_nil oldA newA hA
  have hsecA : addedSectionLines (compare_events oldA newA)
      = ["Newly added events (0):"] := by
    simp only [addedSectionLines, hA, hz, List.flatMap_nil]
    rfl
  have hsumA : summarySectionLines (compare_events oldA newA) = [] := by
    simp [summarySectionLines, hA]
  refine ⟨⟨hsecA, hsumA, ?_⟩, ?_, ?_⟩
  · rw [generateReportLines, hsecA, hsumA, List.append_nil]
  · simp [summarySectionLines, List.isEmpty_iff, hB]
  · rw [List.length_take]
    exact min_le_left _ _

/-- Witness for `report_empty_added_and_summary_cap`: `(oldA, newA)` diffs to
no added events, `(oldB, newB)` to one. -/
theorem report_empty_added_and_summary_cap_witness :
    (compare_events [("u", recA)] [] ).added = []
      ∧ (compare_events [] [("u", recA)]).added ≠ []
      ∧ ((addedSectionLines (compare_events [("u", recA)] []) = ["Newly added events (0):"]
          ∧ summarySectionLines (compare_events [("u", recA)] []) = []
          ∧ generateReportLines (compare_events [("u", recA)] []) "2025-06-05 12:00:00"
              = reportHeaderLines (compare_events [("u", recA)] []) "2025-06-05 12:00:00"
                ++ ["Newly added events (0):"]
                ++ removedSectionLines (compare_events [("u", recA)] []))
        ∧ (summarySectionLines (compare_events [] [("u", recA)])
              = "\n=== New Events Summary ==="
                :: summaryEntriesLines 1 ((compare_events [] [("u", recA)]).added.take 10)
            ∧ ((compare_events [] [("u", recA)]).added.take 10).length ≤ 10)) :=
  ⟨by decide, by decide,
    report_empty_added_and_summary_cap [("u", recA)] [] [] [("u", recA)]
      "2025-06-05 12:00:00" (by decide) (by decide)⟩

/-- C6: every rendered event line falls back to the literal `N/A` when the
corresponding optional field (url, venue, date) is absent, and to
`Untitled Event` when the name is absent — in the added and removed blocks
and in the summary entries alike. -/
theorem render_optional_field_fallbacks (e : EventRecord) (i : Nat) :
    (e.name = none →
        (addedEventLines e).head? = some "- Untitled Event"
        ∧ (removedEventLines e).head? = some "- Untitled Event"
        ∧ (summaryEventLines i e).head?
            = some ("\n" ++ toString i ++ ". Untitled Event"))
    ∧ (e.url = none →
        (addedEventLines e).get? 1 = some "  URL: N/A"
        ∧ (removedEventLines e).get? 1 = some "  URL: N/A"
        ∧ (summaryEventLines i e).get? 3 = some "   URL: N/A")
    ∧ (e.venue = none → (summaryEventLines i e).get? 1 = some "   Venue: N/A")
    ∧ (e.date = none → (summaryEventLines i e).get? 2 = some "   Date: N/A") := by
  refine ⟨?_, ?_, ?_, ?_⟩
  · intro h
    refine ⟨?_, ?_, ?_⟩
    · simp [addedEventLines, h]
    · simp [removedEventLines, h]
    · simp only [summaryEventLines, h, Option.getD_none, List.cons_append,
        List.head?_cons, Option.some.injEq]
      rw [String.append_assoc]
      rfl
  · intro h
    refine ⟨?_, ?_, ?_⟩
    · simp [addedEventLines, h]
    · simp [removedEventLines, h]
    · simp [summaryEventLines, h]
  · intro h
    simp [summaryEventLines, h]
  · intro h
    simp [summaryEventLines, h]

/-- Witness for `render_optional_field_fallbacks`: the record with every
field absent, rendered as summary entry 1. -/
theorem render_optional_field_fallbacks_witness :
    ((({} : EventRecord).name = none ∧ ({} : EventRecord).url = none
        ∧ ({} : EventRecord).venue = none ∧ ({} : EventRecord).date = none)
      ∧ (addedEventLines {}).head? = some "- Untitled Event"
      ∧ (removedEventLines {}).head? = some "- Untitled Event"
      ∧ (summaryEventLines 1 {}).head? = some ("\n" ++ toString 1 ++ ". Untitled Event")
      ∧ (addedEventLines {}).get? 1 = some "  URL: N/A"
      ∧ (removedEventLines {}).get? 1 = some "  URL: N/A"
      ∧ (summaryEventLines 1 {}).get? 3 = some "   URL: N/A"
      ∧ (summaryEventLines 1 {}).get? 1 = some "   Venue: N/A"
      ∧ (summaryEventLines 1 {}).get? 2 = some "   Date: N/A") := by
  obtain ⟨h1, h2, h3, h4⟩ := render_optional_field_fallbacks {} 1
  obtain ⟨a1, a2, a3⟩ := h1 rfl
  obtain ⟨b1, b2, b3⟩ := h2 rfl
  exact ⟨⟨rfl, rfl, rfl, rfl⟩, a1, a2, a3, b1, b2, b3, h3 rfl, h4 rfl⟩

/-- In a mapping with unique keys, lookup finds exactly the bindings of the
association list. -/
theorem lookupA_eq_some_iff (m : Mapping) (hm : (urlKeys m).Nodup)
    (u : String) (e : EventRecord) :
    lookupA m u = some e ↔ (u, e) ∈ m := by
  induction m with
  | nil => simp [lookupA]
  | cons p rest ih =>
    obtain ⟨k, v⟩ := p
    rw [urlKeys, List.map_cons, List.nodup_cons] at hm
    by_cases hku : k = u
    · subst hku
      rw [lookupA, List.find?_cons_of_pos _ (by simp)]
      constructor
      · intro h
        have hv : v = e := by simpa using h
        subst hv
        exact List.mem_cons_self _ _
      · intro h
        rcases List.mem_cons.mp h with h1 | h2
        · have hv : e = v := congrArg Prod.snd h1
          subst hv
          simp
        · exact absurd (List.mem_map_of_mem Prod.fst h2) hm.1
    · rw [lookupA, List.find?_cons_of_neg _ (by simp [hku])]
      rw [← lookupA, ih hm.2]
      have huk : u ≠ k := Ne.symm hku
      simp [List.mem_cons, Prod.ext_iff, huk]

/-- Membership in the diff's `added` list: exactly the bindings of the new
snapshot whose url is not a key of the old one. -/
theorem mem_added_iff (o n : Mapping) (hn : (urlKeys n).Nodup) (e : EventRecord) :
    e ∈ (compare_events o n).added ↔ ∃ u, (u, e) ∈ n ∧ u ∉ urlKeys o := by
  show e ∈ ((urlKeys n).filter (fun u => !((urlKeys o).contains u))).filterMap (lookupA n) ↔ _
  rw [List.mem_filterMap]
  constructor
  · rintro ⟨u, hu, hlook⟩
    rw [List.mem_filter] at hu
    refine ⟨u, (lookupA_eq_some_iff n hn u e).mp hlook, ?_⟩
    simpa using hu.2
  · rintro ⟨u, hmem, hnot⟩
    refine ⟨u, ?_, (lookupA_eq_some_iff n hn u e).mpr hmem⟩
    rw [List.mem_filter]
    exact ⟨List.mem_map_of_mem Prod.fst hmem, by simpa using hnot⟩

/-- Membership in the diff's `removed` list: exactly the bindings of the old
snapshot whose url is not a key of the new one. -/
theorem mem_removed_iff (o n : Mapping) (ho : (urlKeys o).Nodup) (e : EventRecord) :
    e ∈ (compare_events o n).removed ↔ ∃ u, (u, e) ∈ o ∧ u ∉ urlKeys n := by
  show e ∈ ((urlKeys o).filter (fun u => !((urlKeys n).contains u))).filterMap (lookupA o) ↔ _
  rw [List.mem_filterMap]
  constructor
  · rintro ⟨u, hu, hlook⟩
    rw [List.mem_filter] at hu
    refine ⟨u, (lookupA_eq_some_iff o ho u e).mp hlook, ?_⟩
    simpa using hu.2
  · rintro ⟨u, hmem, hnot⟩
    refine ⟨u, ?_, (lookupA_eq_some_iff o ho u e).mpr hmem⟩
    rw [List.mem_filter]
    exact ⟨List.mem_map_of_mem Prod.fst hmem, by simpa using hnot⟩

/-- The reported `added` count is the cardinality of the key-set difference
new − old. -/
theorem stats_added_eq_card (o n : Mapping) (hn : (urlKeys n).Nodup) :
    (compare_events o n).stats_added
      = ((urlKeys n).toFinset \ (urlKeys o).toFinset).card := by
  show ((urlKeys n).filter (fun u => !((urlKeys o).contains u))).length = _
  have hnd : ((urlKeys n).filter (fun u => !((urlKeys o).contains u))).Nodup :=
    hn.filter _
  rw [← List.toFinset_card_of_nodup hnd]
  congr 1
  ext u
  simp [List.mem_filter, Finset.mem_sdiff]

/-- The reported `removed` count is the cardinality of the key-set
difference old − new. -/
theorem stats_removed_eq_card (o n : Mapping) (ho : (urlKeys o).Nodup) :
    (compare_events o n).stats_removed
      = ((urlKeys o).toFinset \ (urlKeys n).toFinset).card := by
  show ((urlKeys o).filter (fun u => !((urlKeys n).contains u))).length = _
  have hnd : ((urlKeys o).filter (fun u => !((urlKeys n).contains u))).Nodup :=
    ho.filter _
  rw [← List.toFinset_card_of_nodup hnd]
  congr 1
  ext u
  simp [List.mem_filter, Finset.mem_sdiff]

/-- C2: for snapshot mappings (unique keys), the diff's `added` list holds
exactly the full records of `new` whose urls are in new-keys minus old-keys,
its `removed` list exactly the full records of `old` whose urls are in
old-keys minus new-keys, and its stats are the corresponding set
cardinalities and mapping sizes. -/
theorem compare_events_spec (old_events new_events : Mapping)
    (ho : (urlKeys old_events).Nodup) (hn : (urlKeys new_events).Nodup) :
    (∀ e, e ∈ (compare_events old_events new_events).added
        ↔ ∃ u, (u, e) ∈ new_events ∧ u ∉ urlKeys old_events)
      ∧ (∀ e, e ∈ (compare_events old_events new_events).removed
          ↔ ∃ u, (u, e) ∈ old_events ∧ u ∉ urlKeys new_events)
      ∧ (compare_events old_events new_events).stats_added
          = ((urlKeys new_events).toFinset \ (urlKeys old_events).toFinset).card
      ∧ (compare_events old_events new_events).stats_removed
          = ((urlKeys old_events).toFinset \ (urlKeys new_events).toFinset).card
      ∧ (compare_events old_events new_events).stats_total_old = old_events.length
      ∧ (compare_events old_events new_events).stats_total_new = new_events.length :=
  ⟨fun e => mem_added_iff old_events new_events hn e,
   fun e => mem_removed_iff old_events new_events ho e,
   stats_added_eq_card old_events new_events hn,
   stats_removed_eq_card old_events new_events ho,
   rfl, rfl⟩

/-- Witness for `compare_events_spec` at the spec's Scenario 1, old = `{}`
and new = `{A}`: the hypotheses hold, the characterisations hold, and
concretely `added = [A]`, `removed = []`,
`stats = {added: 1, removed: 0, total_old: 0, total_new: 1}`. -/
theorem compare_events_spec_witness :
    ((urlKeys ([] : Mapping)).Nodup ∧ (urlKeys [("u", recA)]).Nodup)
      ∧ ((∀ e, e ∈ (compare_events [] [("u", recA)]).added
            ↔ ∃ u, (u, e) ∈ [("u", recA)] ∧ u ∉ urlKeys ([] : Mapping))
        ∧ (∀ e, e ∈ (compare_events [] [("u", recA)]).removed
            ↔ ∃ u, (u, e) ∈ ([] : Mapping) ∧ u ∉ urlKeys [("u", recA)])
        ∧ (compare_events [] [("u", recA)]).stats_added
            = ((urlKeys [("u", recA)]).toFinset \ (urlKeys ([] : Mapping)).toFinset).card
        ∧ (compare_events [] [("u", recA)]).stats_removed
            = ((urlKeys ([] : Mapping)).toFinset \ (urlKeys [("u", recA)]).toFinset).card
        ∧ (compare_events [] [("u", recA)]).stats_total_old = ([] : Mapping).length
        ∧ (compare_events [] [("u", recA)]).stats_total_new = [("u", recA)].length)
      ∧ ((compare_events [] [("u", recA)]).added = [recA]
        ∧ (compare_events [] [("u", recA)]).removed = []
        ∧ (compare_events [] [("u", recA)]).stats_added = 1
        ∧ (compare_events [] [("u", recA)]).stats_removed = 0
        ∧ (compare_events [] [("u", recA)]).stats_total_old = 0
        ∧ (compare_events [] [("u", recA)]).stats_total_new = 1) :=
  ⟨⟨by decide, by decide⟩,
   compare_events_spec [] [("u", recA)] (by decide) (by decide),
   by decide, by decide, by decide, by decide, by decide, by decide⟩

/-- The url set of a list of records. -/
def recordUrls (l : List EventRecord) : Finset String :=
  (l.filterMap EventRecord.url).toFinset

/-- C4: for snapshot mappings (unique keys, each record keyed by its own
url), the url sets of the diff's `added` and `removed` lists are
`new − old` and `old − new` respectively, hence disjoint, disjoint from the
unchanged keys `old ∩ new`, and the three together partition
`old ∪ new`. -/
theorem compare_events_partition (old_events new_events : Mapping)
    (ho : (urlKeys old_events).Nodup) (hn : (urlKeys new_events).Nodup)
    (hco : ∀ p ∈ old_events, (p : String × EventRecord).2.url = some p.1)
    (hcn : ∀ p ∈ new_events, (p : String × EventRecord).2.url = some p.1) :
    recordUrls (compare_events old_events new_events).added
        = (urlKeys new_events).toFinset \ (urlKeys old_events).toFinset
      ∧ recordUrls (compare_events old_events new_events).removed
          = (urlKeys old_events).toFinset \ (urlKeys new_events).toFinset
      ∧ Disjoint (recordUrls (compare_events old_events new_events).added)
          (recordUrls (compare_events old_events new_events).removed)
      ∧ Disjoint (recordUrls (compare_events old_events new_events).added)
          ((urlKeys old_events).toFinset ∩ (urlKeys new_events).toFinset)
      ∧ Disjoint (recordUrls (compare_events old_events new_events).removed)
          ((urlKeys old_events).toFinset ∩ (urlKeys new_events).toFinset)
      ∧ recordUrls (compare_events old_events new_events).added
          ∪ ((urlKeys old_events).toFinset ∩ (urlKeys new_events).toFinset)
          ∪ recordUrls (compare_events old_events new_events).removed
        = (urlKeys old_events).toFinset ∪ (urlKeys new_events).toFinset := by
  have hA : recordUrls (compare_events old_events new_events).added
      = (urlKeys new_events).toFinset \ (urlKeys old_events).toFinset := by
    ext x
    simp only [recordUrls, List.mem_toFinset, List.mem_filterMap,
      Finset.mem_sdiff]
    constructor
    · rintro ⟨e, he, hx⟩
      obtain ⟨u, hu, hnot⟩ :=
        (mem_added_iff old_events new_events hn e).mp he
      have := hcn (u, e) hu
      rw [hx] at this
      obtain rfl : x = u := by injection this
      exact ⟨List.mem_map_of_mem Prod.fst hu, by simpa using hnot⟩
    · rintro ⟨hx, hnot⟩
      rw [urlKeys, List.mem_map] at hx
      obtain ⟨p, hp, hpx⟩ := hx
      refine ⟨p.2, ?_, ?_⟩
      · refine (mem_added_iff old_events new_events hn p.2).mpr ⟨x, ?_, by simpa using hnot⟩
        rw [← hpx]
        exact hp
      · rw [hcn p hp, hpx]
  have hR : recordUrls (compare_events old_events new_events).removed
      = (urlKeys old_events).toFinset \ (urlKeys new_events).toFinset := by
    ext x
    simp only [recordUrls, List.mem_toFinset, List.mem_filterMap,
      Finset.mem_sdiff]
    constructor
    · rintro ⟨e, he, hx⟩
      obtain ⟨u, hu, hnot⟩ :=
        (mem_removed_iff old_events new_events ho e).mp he
      have := hco (u, e) hu
      rw [hx] at this
      obtain rfl : x = u := by injection this
      exact ⟨List.mem_map_of_mem Prod.fst hu, by simpa using hnot⟩
    · rintro ⟨hx, hnot⟩
      rw [urlKeys, List.mem_map] at hx
      obtain ⟨p, hp, hpx⟩ := hx
      refine ⟨p.2, ?_, ?_⟩
      · refine (mem_removed_iff old_events new_events ho p.2).mpr ⟨x, ?_, by simpa using hnot⟩
        rw [← hpx]
        exact hp
      · rw [hco p hp, hpx]
  refine ⟨hA, hR, ?_, ?_, ?_, ?_⟩
  · rw [hA, hR]
    rw [Finset.disjoint_left]
    intro a ha hb
    rw [Finset.mem_sdiff] at ha hb
    exact hb.2 ha.1
  · rw [hA, Finset.disjoint_left]
    intro a ha hb
    rw [Finset.mem_sdiff] at ha
    rw [Finset.mem_inter] at hb
    exact ha.2 hb.1
  · rw [hR, Finset.disjoint_left]
    intro a ha hb
    rw [Finset.mem_sdiff] at ha
    rw [Finset.mem_inter] at hb
    exact ha.2 hb.2
  · rw [hA, hR]
    ext x
    simp only [Finset.mem_union, Finset.mem_sdiff, Finset.mem_inter]
    tauto

/-- Witness for `compare_events_partition`: old = `{u -> recA}`,
new = `{v -> recB}` with distinct urls. -/
theorem compare_events_partition_witness :
    ((urlKeys [("u", recA)]).Nodup ∧ (urlKeys [("v", recB)]).Nodup
      ∧ (∀ p ∈ [("u", recA)], (p : String × EventRecord).2.url = some p.1)
      ∧ (∀ p ∈ [("v", recB)], (p : String × EventRecord).2.url = some p.1))
    ∧ (recordUrls (compare_events [("u", recA)] [("v", recB)]).added
          = (urlKeys [("v", recB)]).toFinset \ (urlKeys [("u", recA)]).toFinset
        ∧ recordUrls (compare_events [("u", recA)] [("v", recB)]).removed
            = (urlKeys [("u", recA)]).toFinset \ (urlKeys [("v", recB)]).toFinset
        ∧ Disjoint (recordUrls (compare_events [("u", recA)] [("v", recB)]).added)
            (recordUrls (compare_events [("u", recA)] [("v", recB)]).removed)
        ∧ Disjoint (recordUrls (compare_events [("u", recA)] [("v", recB)]).added)
            ((urlKeys [("u", recA)]).toFinset ∩ (urlKeys [("v", recB)]).toFinset)
        ∧ Disjoint (recordUrls (compare_events [("u", recA)] [("v", recB)]).removed)
            ((urlKeys [("u", recA)]).toFinset ∩ (urlKeys [("v", recB)]).toFinset)
        ∧ recordUrls (compare_events [("u", recA)] [("v", recB)]).added
            ∪ ((urlKeys [("u", recA)]).toFinset ∩ (urlKeys [("v", recB)]).toFinset)
            ∪ recordUrls (compare_events [("u", recA)] [("v", recB)]).removed
          = (urlKeys [("u", recA)]).toFinset ∪ (urlKeys [("v", recB)]).toFinset) :=
  ⟨⟨by decide, by decide, by decide, by decide⟩,
   compare_events_partition [("u", recA)] [("v", recB)]
     (by decide) (by decide) (by decide) (by decide)⟩

/-- Updating the value at key `k` in place leaves every other lookup
unchanged. -/
theorem lookupA_map_update_ne (k : String) (v : EventRecord) (u : String)
    (hu : u ≠ k) :
    ∀ m : Mapping,
      lookupA (m.map (fun p => if p.1 == k then (k, v) else p)) u = lookupA m u := by
  intro m
  induction m with
  | nil => rfl
  | cons q rest ih =>
    by_cases hq : q.1 = k
    · rw [List.map_cons, if_pos (by simp [hq])]
      rw [lookupA, List.find?_cons_of_neg _ (by simp [Ne.symm hu])]
      rw [lookupA, List.find?_cons_of_neg _ (by simp [hq, Ne.symm hu])]
      rw [← lookupA, ← lookupA, ih]
    · rw [List.map_cons, if_neg (by simp [hq])]
      by_cases hqu : q.1 = u
      · rw [lookupA, List.find?_cons_of_pos _ (by simp [hqu]),
          lookupA, List.find?_cons_of_pos _ (by simp [hqu])]
      · rw [lookupA, List.find?_cons_of_neg _ (by simp [hqu]),
          lookupA, List.find?_cons_of_neg _ (by simp [hqu])]
        rw [← lookupA, ← lookupA, ih]

/-- Updating the value at an existing key `k` in place makes lookup at `k`
return the new value. -/
theorem lookupA_map_update_self (k : String) (v : EventRecord) :
    ∀ m : Mapping, m.any (fun p => p.1 == k) = true →
      lookupA (m.map (fun p => if p.1 == k then (k, v) else p)) k = some v := by
  intro m
  induction m with
  | nil => intro h; simp at h
  | cons q rest ih =>
    intro h
    by_cases hq : q.1 = k
    · rw [List.map_cons, if_pos (by simp [hq])]
      rw [lookupA, List.find?_cons_of_pos _ (by simp)]
      rfl
    · rw [List.map_cons, if_neg (by simp [hq])]
      rw [lookupA, List.find?_cons_of_neg _ (by simp [hq])]
      rw [← lookupA]
      apply ih
      simp only [List.any_cons, Bool.or_eq_true] at h
      rcases h with h | h
      · exact absurd (by simpa using h) hq
      · exact h

/-- Lookup distributes over appending mappings. -/
theorem lookupA_append (m₁ m₂ : Mapping) (u : String) :
    lookupA (m₁ ++ m₂) u = (lookupA m₁ u).or (lookupA m₂ u) := by
  rw [lookupA, List.find?_append, lookupA, lookupA]
  cases m₁.find? (fun p => p.1 == u) <;> simp

/-- Lookup of a key not in the mapping fails. -/
theorem lookupA_eq_none_of_not_mem (m : Mapping) (u : String)
    (h : u ∉ urlKeys m) : lookupA m u = none := by
  have hfind : m.find? (fun p => p.1 == u) = none := by
    rw [List.find?_eq_none]
    intro p hp hpu
    exact h (by rw [urlKeys]; exact List.mem_map.mpr ⟨p, hp, by simpa using hpu⟩)
  rw [lookupA, hfind]
  rfl

/-- `dictInsert` behaves like a Python dict assignment on lookups: the new
value at `k`, everything else untouched. -/
theorem lookupA_dictInsert (m : Mapping) (k : String) (v : EventRecord)
    (u : String) :
    lookupA (dictInsert m k v) u = if u = k then some v else lookupA m u := by
  rw [dictInsert]
  by_cases hany : m.any (fun p => p.1 == k) = true
  · rw [if_pos hany]
    by_cases huk : u = k
    · subst huk
      rw [if_pos rfl]
      exact lookupA_map_update_self u v m hany
    · rw [if_neg huk]
      exact lookupA_map_update_ne k v u huk m
  · rw [if_neg hany, lookupA_append]
    by_cases huk : u = k
    · subst huk
      have hnm : u ∉ urlKeys m := by
        intro hmem
        apply hany
        rw [urlKeys, List.mem_map] at hmem
        obtain ⟨p, hp, hpk⟩ := hmem
        rw [List.any_eq_true]
        exact ⟨p, hp, by simp [hpk]⟩
      rw [if_pos rfl, lookupA_eq_none_of_not_mem m u hnm]
      simp [lookupA]
    · rw [if_neg huk]
      have h1 : lookupA [(k, v)] u = none := by
        rw [lookupA, List.find?_cons_of_neg _ (by simp [Ne.symm huk])]
        rfl
      rw [h1]
      cases lookupA m u <;> rfl

/-- In-place value replacement leaves the key list unchanged. -/
theorem urlKeys_map_update (m : Mapping) (k : String) (v : EventRecord) :
    urlKeys (m.map (fun p => if p.1 == k then (k, v) else p)) = urlKeys m := by
  rw [urlKeys, urlKeys, List.map_map]
  apply List.map_congr_left
  intro p _
  by_cases hp : p.1 = k
  · simp [hp]
  · simp [hp]

/-- The keys after a `dictInsert`: unchanged when the key exists, appended
otherwise (Python dict insertion order). -/
theorem urlKeys_dictInsert (m : Mapping) (k : String) (v : EventRecord) :
    urlKeys (dictInsert m k v)
      = if k ∈ urlKeys m then urlKeys m else urlKeys m ++ [k] := by
  rw [dictInsert]
  by_cases hany : m.any (fun p => p.1 == k) = true
  · obtain ⟨p, hp, hpk⟩ := List.any_eq_true.mp hany
    have hk : k ∈ urlKeys m := by
      rw [urlKeys, List.mem_map]
      exact ⟨p, hp, by simpa using hpk⟩
    rw [if_pos hany, urlKeys_map_update, if_pos hk]
  · have hk : k ∉ urlKeys m := by
      intro hmem
      apply hany
      rw [urlKeys, List.mem_map] at hmem
      obtain ⟨p, hp, hpk⟩ := hmem
      rw [List.any_eq_true]
      exact ⟨p, hp, by simp [hpk]⟩
    rw [if_neg hany, if_neg hk, urlKeys, List.map_append]
    rfl

/-- `dictInsert` preserves key uniqueness. -/
theorem urlKeys_dictInsert_nodup (m : Mapping) (k : String) (v : EventRecord)
    (h : (urlKeys m).Nodup) : (urlKeys (dictInsert m k v)).Nodup := by
  rw [urlKeys_dictInsert]
  by_cases hk : k ∈ urlKeys m
  · rwa [if_pos hk]
  · rw [if_neg hk]
    rw [List.nodup_append]
    refine ⟨h, List.nodup_singleton k, ?_⟩
    intro a ha hb
    rw [List.mem_singleton] at hb
    subst hb
    exact hk ha

/-- The key set after a `dictInsert` gains exactly `k`. -/
theorem toFinset_urlKeys_dictInsert (m : Mapping) (k : String) (v : EventRecord) :
    (urlKeys (dictInsert m k v)).toFinset = insert k (urlKeys m).toFinset := by
  rw [urlKeys_dictInsert]
  by_cases hk : k ∈ urlKeys m
  · rw [if_pos hk]
    exact (Finset.insert_eq_self.mpr (List.mem_toFinset.mpr hk)).symm
  · rw [if_neg hk]
    ext x
    simp [or_comm]

/-- Invariant of the dict comprehension: on success, key uniqueness is
preserved, lookups see the LAST record with each url (earlier bindings of
the accumulator only as fallback), and the key set grows by exactly the
urls of the processed records. -/
theorem buildMappingAux_spec :
    ∀ (events : List EventRecord) (acc m : Mapping),
      buildMappingAux acc events = Except.ok m →
        ((urlKeys acc).Nodup → (urlKeys m).Nodup)
        ∧ (∀ u, lookupA m u
            = (events.reverse.find? (fun e => e.url == some u)).or (lookupA acc u))
        ∧ (urlKeys m).toFinset
            = (urlKeys acc).toFinset ∪ (events.filterMap EventRecord.url).toFinset := by
  intro events
  induction events with
  | nil =>
    intro acc m h
    obtain rfl : acc = m := by simpa [buildMappingAux] using h
    exact ⟨id, fun u => by simp, by simp⟩
  | cons e rest ih =>
    intro acc m h
    cases hurl : e.url with
    | none => simp [buildMappingAux, hurl] at h
    | some u₀ =>
      simp only [buildMappingAux, hurl] at h
      obtain ⟨ih1, ih2, ih3⟩ := ih (dictInsert acc u₀ e) m h
      refine ⟨?_, ?_, ?_⟩
      · intro hacc
        exact ih1 (urlKeys_dictInsert_nodup acc u₀ e hacc)
      · intro u
        rw [ih2 u, List.reverse_cons, List.find?_append, Option.or_assoc]
        congr 1
        rw [lookupA_dictInsert]
        by_cases huk : u = u₀
        · subst huk
          rw [if_pos rfl]
          simp [List.find?, hurl]
        · rw [if_neg huk]
          have hne : (u₀ == u) = false := by
            simp [Ne.symm huk]
          simp [List.find?, hurl, hne]
      · rw [ih3, toFinset_urlKeys_dictInsert]
        rw [List.filterMap_cons]
        simp only [hurl]
        ext x
        simp only [Finset.mem_union, Finset.mem_insert, List.mem_toFinset,
          List.toFinset_cons, Finset.mem_insert]
        tauto

/-- A record sharing `recA`'s url with a different name, for the last-wins
witness. -/
def recC : EventRecord := { name := some "C", url := some "u" }

/-- C10: loading a JSON array of event records yields a mapping with unique
url keys in which, for records sharing a url, the LAST occurrence in the
array wins; the mapping's size is the number of distinct urls — at most, and
possibly fewer than (see the witness), the number of records — and this size
is exactly what the diff reports as `total_old` / `total_new`. -/
theorem load_events_last_wins (filename : String) (events : List EventRecord)
    (m : Mapping) (log : List String)
    (h : load_events filename (SnapshotFile.validJson events)
          = Except.ok (m, log)) :
    (urlKeys m).Nodup
      ∧ (∀ u, lookupA m u = events.reverse.find? (fun e => e.url == some u))
      ∧ m.length = (events.filterMap EventRecord.url).toFinset.card
      ∧ m.length ≤ events.length
      ∧ (∀ m₂ : Mapping, (compare_events m m₂).stats_total_old = m.length
          ∧ (compare_events m₂ m).stats_total_new = m.length) := by
  have hb : buildMapping events = Except.ok m := by
    rw [load_events] at h
    cases hbm : buildMapping events with
    | error s => rw [hbm] at h; cases h
    | ok m' =>
      rw [hbm] at h
      injection h with h'
      injection h' with h1 h2
      rw [h1]
  obtain ⟨h1, h2, h3⟩ := buildMappingAux_spec events [] m hb
  have hnodup : (urlKeys m).Nodup := h1 (by simp [urlKeys])
  have hlen : m.length = (events.filterMap EventRecord.url).toFinset.card := by
    have hm : m.length = (urlKeys m).length := by simp [urlKeys]
    rw [hm, ← List.toFinset_card_of_nodup hnodup, h3]
    simp [urlKeys]
  refine ⟨hnodup, ?_, hlen, ?_, fun m₂ => ⟨rfl, rfl⟩⟩
  · intro u
    rw [h2 u]
    simp [lookupA]
  · rw [hlen]
    calc (events.filterMap EventRecord.url).toFinset.card
        ≤ (events.filterMap EventRecord.url).length := List.toFinset_card_le _
      _ ≤ events.length := List.length_filterMap_le _ _

/-- Witness for `load_events_last_wins`: two records share url `u`, the
later one (`recC`) wins, and the mapping has 1 entry — strictly fewer than
the 2 stored records. -/
theorem load_events_last_wins_witness :
    load_events "events_x.json" (SnapshotFile.validJson [recA, recC])
        = Except.ok ([("u", recC)], [])
      ∧ ((urlKeys [("u", recC)]).Nodup
        ∧ (∀ u, lookupA [("u", recC)] u
            = [recA, recC].reverse.find? (fun e => e.url == some u))
        ∧ [("u", recC)].length
            = ([recA, recC].filterMap EventRecord.url).toFinset.card
        ∧ [("u", recC)].length ≤ [recA, recC].length
        ∧ (∀ m₂ : Mapping,
            (compare_events [("u", recC)] m₂).stats_total_old
                = [("u", recC)].length
              ∧ (compare_events m₂ [("u", recC)]).stats_total_new
                  = [("u", recC)].length))
      ∧ [("u", recC)].length < [recA, recC].length :=
  ⟨rfl,
   load_events_last_wins "events_x.json" [recA, recC] [("u", recC)] [] rfl,
   by decide⟩
